import Mathlib

/-!
Verification of the bundle-optimization plugin
(`listenrightmeow/newk-plugin-bundle-optimization`).

This file gives a shallow embedding of the parts of the source relevant to
the properties under scrutiny:

* `src/SmartRecovery.ts` — the binary-search recovery engine
  (`performBinarySearchRecovery`, `binarySearchOptimalSet`,
  `minimizeWorkingSet`, `restoreComponents`, `removeComponents`);
* `src/TreeDrivenOptimizer.ts` — the nuclear elimination engine
  (`scanAndDeleteAllComponents`, `extractExports`, `createEmptyExport`);
* `src/SmartBundleOptimizer.ts` — the phase orchestrator
  (`optimize`, `executeBetaPhase`, `executeCharliePhase`);
* `src/ComponentUsageAnalyzer.ts` — `identifyBasicEliminationCandidates`.

The external world (filesystem and build/validate oracle) is abstracted by
explicit environments: the mutable working tree is the set of currently
restored (active) eliminated components, a probe is a Boolean function of
that set, and availability of a component's backup file is a Boolean
function of its name.  All code-side definitions are translated from the
TypeScript source.
-/

namespace BundleOpt

/-! ## SmartRecovery.ts — data model -/

/-- `RecoveryStep` record (SmartRecovery.ts:14-22).  `action` is one of
`"remove" | "restore" | "test"`. -/
structure RecoveryStep where
  iteration : Nat
  action : String
  components : List String
  dependencies : List String
  success : Bool
  errors : List String
deriving Repr, DecidableEq

/-- `RecoveryResult` record (SmartRecovery.ts:24-34), omitting the optional
`finalMetrics`/`performance` fields, which only echo the external
validator. -/
structure RecoveryResult where
  success : Bool
  minimalDependencies : List String
  minimalComponents : List String
  restoredComponents : List String
  totalIterations : Nat
  recoverySteps : List RecoveryStep
  errors : List String
deriving Repr, DecidableEq

/-- Abstraction of the engine's external collaborators.  `validate` is the
deterministic probe (`testCurrentState`, SmartRecovery.ts:333-351): a Boolean
function of the working tree, which we represent as the set of eliminated
components currently restored (active).  `backupOk c` says whether the
renamed `.unused` backup file of component `c` can be found and renamed back
(`findUnusedComponent` succeeding and `fs.rename` not throwing,
SmartRecovery.ts:290-301). -/
structure RecoveryEnv where
  validate : Finset String → Bool
  backupOk : String → Bool

/-- `defaultConfig.maxIterations` (SmartRecovery.ts:48-53). -/
def defaultMaxIterations : Nat := 20

/-! ## SmartRecovery.ts — operations -/

/-- `restoreComponents` (SmartRecovery.ts:286-308).  For each component in
order: if its `.unused` file exists (the component is currently inactive and
its backup is available) it is renamed back into the tree; otherwise the
error `Component file not found: <c>` (or the rename failure) is recorded.
Returns the updated tree and the accumulated error list; the caller treats
`errors = []` as success. -/
def restoreComponents (env : RecoveryEnv) (tree : Finset String)
    (components : List String) : Finset String × List String :=
  components.foldl
    (fun acc c =>
      if c ∉ acc.1 ∧ env.backupOk c then (insert c acc.1, acc.2)
      else (acc.1, acc.2 ++ ["Component file not found: " ++ c]))
    (tree, [])

/-- `removeComponents` (SmartRecovery.ts:313-328): each listed component's
active file, when present, is renamed to `.unused` (removed from the tree);
absent components are silently skipped. -/
def removeComponents (tree : Finset String) (components : List String) :
    Finset String :=
  components.foldl (fun t c => t.erase c) tree

/-- `minimizeWorkingSet` (SmartRecovery.ts:252-281): for each member of the
passing set in order, remove it, re-probe; if validation now fails the member
is necessary and is restored, otherwise it stays removed.  Returns the final
tree together with `necessaryComponents`. -/
def minimizeWorkingSet (env : RecoveryEnv) :
    Finset String → List String → Finset String × List String
  | tree, [] => (tree, [])
  | tree, c :: rest =>
    let tree1 := removeComponents tree [c]
    if env.validate tree1 then
      minimizeWorkingSet env tree1 rest
    else
      let tree2 := (restoreComponents env tree1 [c]).1
      let r := minimizeWorkingSet env tree2 rest
      (r.1, c :: r.2)

/-- `Math.ceil(n / 2)` on a natural `n` (SmartRecovery.ts:168). -/
def halfSize (n : Nat) : Nat := (n + 1) / 2

/-- Mutable state of the outer bisection loop of `binarySearchOptimalSet`
(SmartRecovery.ts:158-236): the working tree, `workingSet`,
`restoredComponents`, the `recoverySteps` log, the loop-local
`currentIteration` counter, and (for the resource-bound property) the number
of outer-loop probe calls issued so far. -/
structure BSState where
  tree : Finset String
  workingSet : List String
  restored : List String
  steps : List RecoveryStep
  iter : Nat
  outerProbes : Nat
deriving DecidableEq

/-- One iteration of the outer `while` loop of `binarySearchOptimalSet`
(SmartRecovery.ts:163-236): split the working set at `ceil(n/2)`, restore the
test half, probe, and either keep (minimizing when the test set has more than
one member), drop, or skip the test half; the recorded `RecoveryStep` and the
remainder always carry over to the next iteration. -/
def bsIter (env : RecoveryEnv) (s : BSState) : BSState :=
  let iter' := s.iter + 1
  let h := halfSize s.workingSet.length
  let testSet := s.workingSet.take h
  let remainingSet := s.workingSet.drop h
  let restoreRes := restoreComponents env s.tree testSet
  let tree1 := restoreRes.1
  if restoreRes.2.isEmpty then
    let testSuccess := env.validate tree1
    let step : RecoveryStep :=
      ⟨iter', "restore", testSet, [], testSuccess, restoreRes.2⟩
    if testSuccess then
      let restored1 := s.restored ++ testSet
      if 1 < testSet.length then
        let m := minimizeWorkingSet env tree1 testSet
        let actuallyNeeded := m.2
        let restored2 :=
          (restored1.filter fun c =>
            !(testSet.contains c) || actuallyNeeded.contains c)
            ++ actuallyNeeded
        let unnecessary := testSet.filter fun c => !(actuallyNeeded.contains c)
        let tree3 :=
          if unnecessary.isEmpty then m.1 else removeComponents m.1 unnecessary
        ⟨tree3, remainingSet, restored2, s.steps ++ [step], iter',
          s.outerProbes + 1⟩
      else
        ⟨tree1, remainingSet, restored1, s.steps ++ [step], iter',
          s.outerProbes + 1⟩
    else
      ⟨removeComponents tree1 testSet, remainingSet, s.restored,
        s.steps ++ [step], iter', s.outerProbes + 1⟩
  else
    let step : RecoveryStep := ⟨iter', "restore", testSet, [], false, restoreRes.2⟩
    ⟨tree1, remainingSet, s.restored, s.steps ++ [step], iter', s.outerProbes⟩

/-- The outer `while (workingSet.length > 0 && currentIteration <
config.maxIterations)` loop (SmartRecovery.ts:163), written with structural
fuel: the caller supplies `fuel = maxIterations - iter`, which matches the
guard `iter < maxIterations` because `bsIter` increments `iter` by exactly
one per pass. -/
def bsLoopAux (env : RecoveryEnv) : Nat → BSState → BSState
  | 0, s => s
  | fuel + 1, s =>
    if s.workingSet = [] then s else bsLoopAux env fuel (bsIter env s)

/-- The outer bisection loop, entered at state `s`. -/
def bsLoop (env : RecoveryEnv) (maxIterations : Nat) (s : BSState) : BSState :=
  bsLoopAux env (maxIterations - s.iter) s

/-- Return value of `binarySearchOptimalSet`
(`Omit<RecoveryResult, 'totalIterations' | 'recoverySteps' | 'errors'>`,
SmartRecovery.ts:153). -/
structure BSResult where
  success : Bool
  minimalDependencies : List String
  minimalComponents : List String
  restoredComponents : List String
deriving Repr, DecidableEq

/-- `binarySearchOptimalSet` (SmartRecovery.ts:147-247): run the outer
bisection loop from the full eliminated set, then run the final probe.
`minimalDependencies` keeps every eliminated dependency (line 243).  The
final `BSState` is returned alongside to expose the mutated tree, the
`recoverySteps` log and the loop-local iteration counter. -/
def binarySearchOptimalSet (env : RecoveryEnv)
    (eliminatedComponents eliminatedDependencies : List String)
    (maxIterations : Nat) (tree : Finset String) : BSResult × BSState :=
  let s1 := bsLoop env maxIterations ⟨tree, eliminatedComponents, [], [], 0, 0⟩
  let finalSuccess := env.validate s1.tree
  (⟨finalSuccess, eliminatedDependencies, s1.restored, s1.restored⟩, s1)

/-- `performBinarySearchRecovery` (SmartRecovery.ts:62-142).  The failed
phase's change set is passed as the two eliminated lists.  The function-local
`currentIteration` (line 77) is initialized to `0` and never incremented —
the `currentIteration++` at line 164 acts on a distinct local variable inside
`binarySearchOptimalSet` — and is what the returned `totalIterations` field
reports (lines 123 and 137).  The final working tree is returned alongside
the result to expose the engine's tree mutations. -/
def performBinarySearchRecovery (env : RecoveryEnv)
    (eliminatedComponents eliminatedDependencies : List String)
    (maxIterations : Nat) (tree : Finset String) :
    RecoveryResult × Finset String :=
  let currentIteration : Nat := 0
  if eliminatedComponents = [] ∧ eliminatedDependencies = [] then
    (⟨false, [], [], [], 0, [], ["No changes detected to recover from"]⟩, tree)
  else
    let r := binarySearchOptimalSet env eliminatedComponents
      eliminatedDependencies maxIterations tree
    (⟨r.1.success, r.1.minimalDependencies, r.1.minimalComponents,
      r.1.restoredComponents, currentIteration, r.2.steps, []⟩, r.2.tree)

/-! ## TreeDrivenOptimizer.ts — nuclear elimination engine -/

/-- `NuclearConfig` (TreeDrivenOptimizer.ts:339-346), keeping the fields the
delete-and-stub scan can observe; `mode`, `testCommand` and
`rebuildStrategy` only drive the external build. -/
structure NuclearConfig where
  preserveList : List String
  maxIterations : Nat
deriving Repr, DecidableEq

/-- The hard-coded protected set
`criticalComponents = new Set(['App', 'main', 'index'])`
(TreeDrivenOptimizer.ts:379). -/
def criticalComponents : List String := ["App", "main", "index"]

/-- `scanAndDeleteAllComponents` (TreeDrivenOptimizer.ts:570-593).  The
globbed component files are given as `(basename, content)` pairs.  Every file
whose basename is not in `criticalComponents` has its content stored in the
`deletedComponents` backup map and is unlinked; the `config` argument is the
`NuclearConfig` the optimizer was invoked with (the scan reads none of its
fields).  Returns the backup map and the files left on disk. -/
def scanAndDeleteAllComponents (config : NuclearConfig)
    (files : List (String × String)) :
    List (String × String) × List (String × String) :=
  (files.filter fun f => !(criticalComponents.contains f.1),
   files.filter fun f => criticalComponents.contains f.1)

/-- Shape of one export declaration of a component module, as the Babel AST
presents it to `extractExports` (TreeDrivenOptimizer.ts:607-656):
`namedFunction` is an `ExportNamedDeclaration` holding a named
`FunctionDeclaration`; `namedVariable` holds a `VariableDeclaration` whose
declarators bind plain identifiers; `namedClass` holds a named
`ClassDeclaration`; `reExport` is an `ExportNamedDeclaration` carrying
`ExportSpecifier`s (local `export { a as b }` or a re-export
`export { a } from '...'`), whose exported name is an identifier or a string
literal; `defaultExport` is an `ExportDefaultDeclaration`. -/
inductive ExportDecl
  | namedFunction (name : String)
  | namedVariable (names : List String)
  | namedClass (name : String)
  | reExport (names : List String)
  | defaultExport
deriving Repr, DecidableEq

/-- The exported symbol names a module with these export declarations
actually has (the ground truth the spec compares the stub against; a default
export counts as the name `default`). -/
def exportedSymbolNames : ExportDecl → List String
  | .namedFunction n => [n]
  | .namedVariable ns => ns
  | .namedClass n => [n]
  | .reExport ns => ns
  | .defaultExport => ["default"]

/-- Exported symbol names of a whole module. -/
def moduleExportedNames (decls : List ExportDecl) : Finset String :=
  decls.foldl (fun acc d => acc ∪ (exportedSymbolNames d).toFinset) ∅

/-- `extractExports` (TreeDrivenOptimizer.ts:607-656): the Babel visitor adds
the name of an exported `FunctionDeclaration`, the identifier declarators of
an exported `VariableDeclaration`, every `ExportSpecifier`'s exported name
(identifier or string literal), and `default` for an
`ExportDefaultDeclaration`.  No other declaration kind is inspected — in
particular an exported `ClassDeclaration` contributes nothing. -/
def extractExports (decls : List ExportDecl) : Finset String :=
  decls.foldl
    (fun exports d =>
      match d with
      | .namedFunction n => insert n exports
      | .namedVariable ns => ns.foldl (fun e n => insert n e) exports
      | .namedClass _ => exports
      | .reExport ns => ns.foldl (fun e n => insert n e) exports
      | .defaultExport => insert "default" exports)
    ∅

/-- The hyphen-to-underscore regex replace applied to export names when the
stub is emitted (TreeDrivenOptimizer.ts:672,688). -/
def safeName (s : String) : String :=
  String.map (fun c => if c = '-' then '_' else c) s

/-- Exported symbol names of the stub `createEmptyExport` writes
(TreeDrivenOptimizer.ts:661-713) for a component whose recorded export set is
`componentExports`: `default` is re-exported as the default export, every
other recorded name is emitted in the final `export { ... }` list under its
hyphen-sanitized form.  A component with an empty recorded set yields a stub
with no exports at all (the recorded empty `Set` is truthy, so the
`new Set(['default'])` fallback at line 665 does not apply). -/
def stubExportedNames (componentExports : Finset String) : Finset String :=
  componentExports.image fun n => if n = "default" then "default" else safeName n

/-! ## SmartBundleOptimizer.ts — phase orchestrator -/

/-- `OptimizationPhase` (SmartBundleOptimizer.ts:11). -/
inductive Phase
  | zulu
  | alpha
  | beta
  | charlie
deriving Repr, DecidableEq

/-- `OptimizationMode` (SmartBundleOptimizer.ts:10). -/
inductive Mode
  | smart
  | aggressive
  | recovery
  | nuclear
deriving Repr, DecidableEq

/-- `PhaseResult` (SmartBundleOptimizer.ts:22-42), keeping the success flag,
the change lists and the error list; the metrics and performance blocks only
echo the external build. -/
structure PhaseResult where
  phase : Phase
  success : Bool
  eliminatedComponents : List String
  eliminatedDependencies : List String
  restoredComponents : List String
  errors : List String
deriving Repr, DecidableEq

/-- Outcomes of the externally-driven phase work: the baseline scan
(`executeZuluPhase`), the elimination work (`executeAlphaPhase`), the
refinement work `executeBetaPhase` performs when ALPHA succeeded, and the
binary-search recovery `executeCharliePhase` runs when ALPHA failed. -/
structure OrchestratorEnv where
  zuluResult : PhaseResult
  alphaResult : PhaseResult
  betaWork : PhaseResult
  charlieRecovery : PhaseResult

/-- The failed result `executeBetaPhase` returns without doing any
refinement work when the ALPHA phase is missing or failed
(SmartBundleOptimizer.ts:467-477). -/
def betaSkipResult : PhaseResult :=
  ⟨.beta, false, [], [], [], ["BETA skipped: ALPHA phase failed"]⟩

/-- `executeBetaPhase` (SmartBundleOptimizer.ts:457-545): look up the first
ALPHA result; if it is missing or failed, return `betaSkipResult` without
touching the tree, otherwise perform the refinement work. -/
def executeBetaPhase (env : OrchestratorEnv) (previous : List PhaseResult) :
    PhaseResult :=
  match previous.find? (fun p => p.phase == .alpha) with
  | some a => if a.success then env.betaWork else betaSkipResult
  | none => betaSkipResult

/-- `executeCharliePhase` (SmartBundleOptimizer.ts:550-619): if the ALPHA
result is missing or succeeded, no recovery is needed — return success with
empty change lists; otherwise run the binary-search recovery. -/
def executeCharliePhase (env : OrchestratorEnv) (previous : List PhaseResult) :
    PhaseResult :=
  match previous.find? (fun p => p.phase == .alpha) with
  | some a =>
    if a.success then ⟨.charlie, true, [], [], [], []⟩ else env.charlieRecovery
  | none => ⟨.charlie, true, [], [], [], []⟩

/-- Dispatch of one phase (the `switch` at SmartBundleOptimizer.ts:118-133). -/
def executePhase (env : OrchestratorEnv) (previous : List PhaseResult) :
    Phase → PhaseResult
  | .zulu => env.zuluResult
  | .alpha => env.alphaResult
  | .beta => executeBetaPhase env previous
  | .charlie => executeCharliePhase env previous

/-- State of the `for (const phase of config.phases)` loop of `optimize`
(SmartBundleOptimizer.ts:109-167).  JavaScript `for...of` over an array
observes elements appended during iteration, so the loop is modelled with the
(growable) phase array plus the current index; `broken` records that the loop
exited through the `break` at line 163. -/
structure OrchState where
  phases : List Phase
  idx : Nat
  results : List PhaseResult
  broken : Bool
deriving DecidableEq

/-- One pass of the orchestrator loop body (SmartBundleOptimizer.ts:109-167):
execute the current phase, push its result, then, in order: if ALPHA failed
and `charlie` is not yet in the phase list, append `charlie` and continue; if
the current phase is BETA and some recorded ALPHA failed, continue; if the
result failed, the mode is not `recovery` and the phase is not ALPHA, break;
otherwise continue. -/
def optimizeStep (env : OrchestratorEnv) (mode : Mode) (s : OrchState) :
    OrchState :=
  match s.phases.get? s.idx with
  | none => s
  | some ph =>
    let r := executePhase env s.results ph
    let results' := s.results ++ [r]
    if ph = .alpha ∧ r.success = false ∧ Phase.charlie ∉ s.phases then
      ⟨s.phases ++ [.charlie], s.idx + 1, results', false⟩
    else if ph = .beta ∧
        results'.any (fun p => p.phase == .alpha && !p.success) then
      ⟨s.phases, s.idx + 1, results', false⟩
    else if r.success = false ∧ mode ≠ .recovery ∧ ph ≠ .alpha then
      ⟨s.phases, s.idx, results', true⟩
    else
      ⟨s.phases, s.idx + 1, results', false⟩

/-- The orchestrator loop, with structural fuel; since `charlie` is appended
at most once, `phases.length + 1` passes always suffice. -/
def optimizeLoop (env : OrchestratorEnv) (mode : Mode) :
    Nat → OrchState → OrchState
  | 0, s => s
  | fuel + 1, s =>
    if s.broken then s
    else
      match s.phases.get? s.idx with
      | none => s
      | some _ => optimizeLoop env mode fuel (optimizeStep env mode s)

/-- The phase-sequencing part of `optimize` (SmartBundleOptimizer.ts:97-203),
run on a configured phase list. -/
def runPhases (env : OrchestratorEnv) (mode : Mode) (phases : List Phase) :
    OrchState :=
  optimizeLoop env mode (phases.length + 1) ⟨phases, 0, [], false⟩

/-! ## ComponentUsageAnalyzer.ts — elimination candidates -/

/-- `ComponentImportInfo` (ComponentUsageAnalyzer.ts:17-23). -/
structure ComponentImportInfo where
  componentName : String
  packageName : String
  filePath : String
  importStatement : String
  isUIComponent : Bool
deriving Repr, DecidableEq

/-- `ComponentRenderInfo` (ComponentUsageAnalyzer.ts:25-30). -/
structure ComponentRenderInfo where
  componentName : String
  renderCount : Nat
  filePaths : List String
  jsxUsages : List String
deriving Repr, DecidableEq

/-- `identifyBasicEliminationCandidates`
(ComponentUsageAnalyzer.ts:445-471): every imported component that either has
no render entry at all, or was rendered at most once in at most one file, is
pushed onto the candidate list.  The `Map`s are modelled as association
lists (a JS `Map` keyed by component name). -/
def identifyBasicEliminationCandidates
    (imported : List (String × ComponentImportInfo))
    (rendered : List (String × ComponentRenderInfo)) : List String :=
  imported.foldl
    (fun candidates entry =>
      match rendered.find? (fun p => p.1 == entry.1) with
      | none => candidates ++ [entry.1]
      | some p =>
        if p.2.renderCount ≤ 1 ∧ p.2.filePaths.length ≤ 1 then
          candidates ++ [entry.1]
        else candidates)
    []

/-! ## Concrete environments and fixtures used in witnesses and
counterexamples -/

/-- A probe for which validation always passes and every backup is
available. -/
def envAllPass : RecoveryEnv := ⟨fun _ => true, fun _ => true⟩

/-- A probe that fails exactly when component `B` is missing from the
tree. -/
def envNeedsB : RecoveryEnv := ⟨fun t => decide ("B" ∈ t), fun _ => true⟩

/-- A successful baseline (ZULU) phase result. -/
def zuluOkW : PhaseResult := ⟨.zulu, true, [], [], [], []⟩

/-- A failed elimination (ALPHA) phase result that eliminated `X`. -/
def alphaFailW : PhaseResult := ⟨.alpha, false, ["X"], [], [], ["broke"]⟩

/-- A successful elimination (ALPHA) phase result. -/
def alphaOkW : PhaseResult := ⟨.alpha, true, ["X"], [], [], []⟩

/-- A concrete orchestrator environment. -/
def envW : OrchestratorEnv :=
  ⟨zuluOkW, alphaFailW, ⟨.beta, true, [], [], [], []⟩,
    ⟨.charlie, true, [], [], ["X"], []⟩⟩

/-- Render count the analyzer's `Map.get` sees for component `c` (`0` when
`c` was never rendered). -/
def renderCountOf (rendered : List (String × ComponentRenderInfo))
    (c : String) : Nat :=
  match rendered.find? (fun p => p.1 == c) with
  | none => 0
  | some p => p.2.renderCount

/-- Number of distinct files component `c` was rendered in (`0` when `c` was
never rendered). -/
def renderFileCountOf (rendered : List (String × ComponentRenderInfo))
    (c : String) : Nat :=
  match rendered.find? (fun p => p.1 == c) with
  | none => 0
  | some p => p.2.filePaths.length

/-! ## Invariants of the bisection loop -/

lemma bsIter_iter (env : RecoveryEnv) (s : BSState) :
    (bsIter env s).iter = s.iter + 1 := by
  simp only [bsIter]
  repeat' split
  all_goals rfl

lemma bsIter_steps_length (env : RecoveryEnv) (s : BSState) :
    (bsIter env s).steps.length = s.steps.length + 1 := by
  simp only [bsIter]
  repeat' split
  all_goals simp

lemma bsIter_outerProbes (env : RecoveryEnv) (s : BSState) :
    (bsIter env s).outerProbes ≤ s.outerProbes + 1 := by
  simp only [bsIter]
  repeat' split
  all_goals simp

lemma bsIter_workingSet (env : RecoveryEnv) (s : BSState) :
    (bsIter env s).workingSet =
      s.workingSet.drop (halfSize s.workingSet.length) := by
  simp only [bsIter]
  repeat' split
  all_goals rfl

lemma bsLoopAux_iter_le (env : RecoveryEnv) (fuel : Nat) (s : BSState) :
    (bsLoopAux env fuel s).iter ≤ s.iter + fuel := by
  induction fuel generalizing s with
  | zero => simp [bsLoopAux]
  | succ n ih =>
    simp only [bsLoopAux]
    split
    · omega
    · have h := ih (bsIter env s)
      rw [bsIter_iter] at h
      omega

lemma bsLoopAux_probes_le (env : RecoveryEnv) (fuel : Nat) (s : BSState)
    (h : s.outerProbes ≤ s.iter) :
    (bsLoopAux env fuel s).outerProbes ≤ (bsLoopAux env fuel s).iter := by
  induction fuel generalizing s with
  | zero => simpa [bsLoopAux]
  | succ n ih =>
    simp only [bsLoopAux]
    split
    · exact h
    · exact ih (bsIter env s)
        (le_trans (bsIter_outerProbes env s)
          (by rw [bsIter_iter]; omega))

lemma bsLoopAux_steps_length (env : RecoveryEnv) (fuel : Nat) (s : BSState) :
    (bsLoopAux env fuel s).steps.length + s.iter =
      (bsLoopAux env fuel s).iter + s.steps.length := by
  induction fuel generalizing s with
  | zero => simp [bsLoopAux, Nat.add_comm]
  | succ n ih =>
    simp only [bsLoopAux]
    split
    · omega
    · have h := ih (bsIter env s)
      rw [bsIter_iter, bsIter_steps_length] at h
      omega

lemma bsLoopAux_halts (env : RecoveryEnv) (m fuel : Nat) (s : BSState)
    (h : m ≤ s.iter + fuel) :
    (bsLoopAux env fuel s).workingSet = [] ∨ m ≤ (bsLoopAux env fuel s).iter := by
  induction fuel generalizing s with
  | zero => right; simpa [bsLoopAux] using h
  | succ n ih =>
    simp only [bsLoopAux]
    split
    · left; assumption
    · exact ih (bsIter env s) (by rw [bsIter_iter]; omega)

lemma ceil_half_eq (n : ℕ) : ⌈(n : ℚ) / 2⌉₊ = (n + 1) / 2 := by
  have h1 : 2 * ((n + 1) / 2) ≤ n + 1 := by omega
  have h2 : n ≤ 2 * ((n + 1) / 2) := by omega
  refine le_antisymm ?_ ?_
  · rw [Nat.ceil_le, div_le_iff₀ (by norm_num : (0:ℚ) < 2)]
    calc (n : ℚ) ≤ (2 * ((n + 1) / 2) : ℕ) := by exact_mod_cast h2
      _ = ((n + 1) / 2 : ℕ) * 2 := by push_cast; ring
  · rcases Nat.eq_zero_or_pos ((n + 1) / 2) with h | h
    · simp [h]
    · have hlt : ((n + 1) / 2 - 1 : ℕ) < ⌈(n : ℚ) / 2⌉₊ := by
        rw [Nat.lt_ceil, lt_div_iff₀ (by norm_num : (0:ℚ) < 2)]
        have h3 : 2 * ((n + 1) / 2 - 1) < n := by omega
        calc ((n + 1) / 2 - 1 : ℕ) * (2:ℚ)
            = (2 * ((n + 1) / 2 - 1) : ℕ) := by push_cast; ring
          _ < n := by exact_mod_cast h3
      omega

lemma bsLoopAux_iter_ge (env : RecoveryEnv) (fuel : Nat) (s : BSState) :
    s.iter ≤ (bsLoopAux env fuel s).iter := by
  induction fuel generalizing s with
  | zero => simp [bsLoopAux]
  | succ n ih =>
    simp only [bsLoopAux]
    split
    · omega
    · have h := ih (bsIter env s)
      rw [bsIter_iter] at h
      omega

/-- C2: for every input elimination set and every `maxIterations` bound, the
outer bisection loop of the recovery engine runs at most `maxIterations`
iterations (witnessed by the loop counter and by the number of recorded
`RecoveryStep`s) and issues at most `maxIterations` outer-loop probe calls;
the loop halts exactly when the working set is empty or the bound is
reached, and the accumulated restored set is returned as the (possibly
partial) result rather than an error being thrown. -/
theorem recovery_loop_bounded_and_partial (env : RecoveryEnv)
    (eliminatedComponents eliminatedDependencies : List String)
    (maxIterations : Nat) (tree : Finset String) :
    (binarySearchOptimalSet env eliminatedComponents eliminatedDependencies
        maxIterations tree).2.iter ≤ maxIterations ∧
    (binarySearchOptimalSet env eliminatedComponents eliminatedDependencies
        maxIterations tree).2.outerProbes ≤ maxIterations ∧
    (binarySearchOptimalSet env eliminatedComponents eliminatedDependencies
        maxIterations tree).2.steps.length ≤ maxIterations ∧
    ((binarySearchOptimalSet env eliminatedComponents eliminatedDependencies
        maxIterations tree).2.workingSet = [] ∨
      maxIterations ≤ (binarySearchOptimalSet env eliminatedComponents
        eliminatedDependencies maxIterations tree).2.iter) ∧
    (binarySearchOptimalSet env eliminatedComponents eliminatedDependencies
        maxIterations tree).1.restoredComponents =
      (binarySearchOptimalSet env eliminatedComponents eliminatedDependencies
        maxIterations tree).2.restored := by
  have hiter := bsLoopAux_iter_le env maxIterations
    ⟨tree, eliminatedComponents, [], [], 0, 0⟩
  have hprobes := bsLoopAux_probes_le env maxIterations
    ⟨tree, eliminatedComponents, [], [], 0, 0⟩ (by simp)
  have hsteps := bsLoopAux_steps_length env maxIterations
    ⟨tree, eliminatedComponents, [], [], 0, 0⟩
  have hhalts := bsLoopAux_halts env maxIterations maxIterations
    ⟨tree, eliminatedComponents, [], [], 0, 0⟩ (by simp)
  simp only [List.length_nil, Nat.add_zero, Nat.zero_add] at hiter hprobes hsteps
  simp only [binarySearchOptimalSet, bsLoop, Nat.sub_zero]
  exact ⟨by omega, by omega, by omega, hhalts, trivial⟩

/-- C3: in every outer iteration, the working set of length `n` is split
into the test set consisting of exactly its first `ceil(n/2)` elements (in
the original elimination order) and the remainder consisting of the rest —
the recorded `RecoveryStep` carries that test set and the loop continues on
the remainder — and the engine is deterministic: two runs whose probes and
backups agree produce identical `RecoveryStep` sequences. -/
theorem split_is_ceil_half_and_run_deterministic (env : RecoveryEnv)
    (s : BSState) :
    (bsIter env s).workingSet =
      s.workingSet.drop (halfSize s.workingSet.length) ∧
    (∃ ok errs, (bsIter env s).steps = s.steps ++
      [⟨s.iter + 1, "restore",
        s.workingSet.take (halfSize s.workingSet.length), [], ok, errs⟩]) ∧
    s.workingSet.take (halfSize s.workingSet.length) ++
      s.workingSet.drop (halfSize s.workingSet.length) = s.workingSet ∧
    halfSize s.workingSet.length = ⌈(s.workingSet.length : ℚ) / 2⌉₊ ∧
    (∀ env₂ : RecoveryEnv, ∀ elC elD : List String, ∀ maxIterations : Nat,
      ∀ tree : Finset String,
      env.validate = env₂.validate → env.backupOk = env₂.backupOk →
      (performBinarySearchRecovery env elC elD maxIterations
          tree).1.recoverySteps =
        (performBinarySearchRecovery env₂ elC elD maxIterations
          tree).1.recoverySteps) := by
  refine ⟨bsIter_workingSet env s, ?_, List.take_append_drop _ _,
    (ceil_half_eq s.workingSet.length).symm, ?_⟩
  · simp only [bsIter]
    repeat' split
    all_goals exact ⟨_, _, rfl⟩
  · intro env₂ elC elD maxIterations tree h1 h2
    obtain ⟨v, b⟩ := env
    obtain ⟨v₂, b₂⟩ := env₂
    simp only at h1 h2
    subst h1
    subst h2
    rfl

/-- C3 witness: the split and the determinism conclusion at a concrete
two-component state, with the probe-agreement hypotheses discharged. -/
theorem split_is_ceil_half_witness :
    (bsIter envAllPass ⟨∅, ["A", "B"], [], [], 0, 0⟩).workingSet =
      ["A", "B"].drop (halfSize (["A", "B"].length)) ∧
    (performBinarySearchRecovery envAllPass ["A", "B"] [] 20
        ∅).1.recoverySteps =
      (performBinarySearchRecovery envAllPass ["A", "B"] [] 20
        ∅).1.recoverySteps :=
  ⟨(split_is_ceil_half_and_run_deterministic envAllPass
      ⟨∅, ["A", "B"], [], [], 0, 0⟩).1,
    (split_is_ceil_half_and_run_deterministic envAllPass
      ⟨∅, ["A", "B"], [], [], 0, 0⟩).2.2.2.2 envAllPass ["A", "B"] [] 20 ∅
      rfl rfl⟩

/-- C9: the `totalIterations` field of the `RecoveryResult` returned by
`performBinarySearchRecovery` is always `0` — the counter in the outer
function is never incremented (the loop counts in a separate local inside
`binarySearchOptimalSet`) — even though for every non-empty elimination set
(and positive bound) the bisection loop actually executes at least one
iteration, so the public result under-reports the iteration count. -/
theorem totalIterations_always_zero (env : RecoveryEnv)
    (eliminatedComponents eliminatedDependencies : List String)
    (maxIterations : Nat) (tree : Finset String) :
    (performBinarySearchRecovery env eliminatedComponents
        eliminatedDependencies maxIterations tree).1.totalIterations = 0 ∧
    (eliminatedComponents ≠ [] → 1 ≤ maxIterations →
      1 ≤ (binarySearchOptimalSet env eliminatedComponents
        eliminatedDependencies maxIterations tree).2.iter) := by
  constructor
  · simp only [performBinarySearchRecovery]
    split
    · rfl
    · rfl
  · intro hne hpos
    simp only [binarySearchOptimalSet, bsLoop, Nat.sub_zero]
    obtain ⟨n, rfl⟩ := Nat.exists_eq_add_of_le' hpos
    simp only [bsLoopAux]
    rw [if_neg hne]
    have h := bsLoopAux_iter_ge env n
      (bsIter env ⟨tree, eliminatedComponents, [], [], 0, 0⟩)
    rw [bsIter_iter] at h
    exact h

/-- C9 witness: at a concrete one-component input the reported
`totalIterations` is `0` while the loop ran at least one iteration. -/
theorem totalIterations_always_zero_witness :
    (performBinarySearchRecovery ⟨fun _ => true, fun _ => true⟩ ["A"] [] 20
        ∅).1.totalIterations = 0 ∧
    1 ≤ (binarySearchOptimalSet ⟨fun _ => true, fun _ => true⟩ ["A"] [] 20
        ∅).2.iter :=
  ⟨(totalIterations_always_zero ⟨fun _ => true, fun _ => true⟩ ["A"] [] 20
      ∅).1,
    (totalIterations_always_zero ⟨fun _ => true, fun _ => true⟩ ["A"] [] 20
      ∅).2 (by decide) (by decide)⟩

/-- C10: when the failed phase's change set is empty (no eliminated
components and no eliminated dependencies), `performBinarySearchRecovery`
returns immediately with `success := false`, the single error
`No changes detected to recover from`, `totalIterations = 0` and empty
minimal/restored sets, and the working tree is left untouched (no restore or
remove mutation). -/
theorem empty_changeset_early_return (env : RecoveryEnv)
    (maxIterations : Nat) (tree : Finset String) :
    performBinarySearchRecovery env [] [] maxIterations tree =
      (⟨false, [], [], [], 0, [],
        ["No changes detected to recover from"]⟩, tree) := by
  rfl

/-- C7: when restoration of a test set itself fails (some component's backup
is missing), the engine does not abort the run: the failure is recorded in
that `RecoveryStep`'s error list (with `success := false`), the test set is
dropped from consideration (nothing is added to the restored set), no outer
probe is issued, and the outer loop continues with the remainder of the
working set. -/
theorem restore_failure_drops_testset_and_continues (env : RecoveryEnv)
    (maxIterations : Nat) (s : BSState)
    (hws : s.workingSet ≠ [])
    (hiter : s.iter < maxIterations)
    (herr : (restoreComponents env s.tree
        (s.workingSet.take (halfSize s.workingSet.length))).2 ≠ []) :
    (bsIter env s).steps = s.steps ++
      [⟨s.iter + 1, "restore",
        s.workingSet.take (halfSize s.workingSet.length), [], false,
        (restoreComponents env s.tree
          (s.workingSet.take (halfSize s.workingSet.length))).2⟩] ∧
    (bsIter env s).restored = s.restored ∧
    (bsIter env s).workingSet =
      s.workingSet.drop (halfSize s.workingSet.length) ∧
    (bsIter env s).outerProbes = s.outerProbes ∧
    bsLoop env maxIterations s = bsLoop env maxIterations (bsIter env s) := by
  have hne : ((restoreComponents env s.tree
      (s.workingSet.take (halfSize s.workingSet.length))).2.isEmpty
        = true) = False := by
    simp [List.isEmpty_iff, herr]
  refine ⟨?_, ?_, ?_, ?_, ?_⟩
  · simp only [bsIter, hne, if_false]
  · simp only [bsIter, hne, if_false]
  · simp only [bsIter, hne, if_false]
  · simp only [bsIter, hne, if_false]
  · have hf : maxIterations - s.iter = (maxIterations - (s.iter + 1)) + 1 := by
      omega
    rw [bsLoop, bsLoop, bsIter_iter, hf]
    simp only [bsLoopAux]
    rw [if_neg hws]

/-- C7 witness: one missing backup at a concrete input. -/
theorem restore_failure_drops_testset_and_continues_witness :
    (bsIter ⟨fun _ => true, fun _ => false⟩
        ⟨∅, ["A"], [], [], 0, 0⟩).steps = [] ++
      [⟨0 + 1, "restore", ["A"].take (halfSize (["A"].length)), [], false,
        (restoreComponents ⟨fun _ => true, fun _ => false⟩ ∅
          (["A"].take (halfSize (["A"].length)))).2⟩] ∧
    (bsIter ⟨fun _ => true, fun _ => false⟩
        ⟨∅, ["A"], [], [], 0, 0⟩).restored = [] ∧
    (bsIter ⟨fun _ => true, fun _ => false⟩
        ⟨∅, ["A"], [], [], 0, 0⟩).workingSet =
      ["A"].drop (halfSize (["A"].length)) ∧
    (bsIter ⟨fun _ => true, fun _ => false⟩
        ⟨∅, ["A"], [], [], 0, 0⟩).outerProbes = 0 ∧
    bsLoop ⟨fun _ => true, fun _ => false⟩ 20 ⟨∅, ["A"], [], [], 0, 0⟩ =
      bsLoop ⟨fun _ => true, fun _ => false⟩ 20
        (bsIter ⟨fun _ => true, fun _ => false⟩ ⟨∅, ["A"], [], [], 0, 0⟩) := by
  have h := restore_failure_drops_testset_and_continues
    ⟨fun _ => true, fun _ => false⟩ 20 ⟨∅, ["A"], [], [], 0, 0⟩
    (by decide) (by decide) (by decide)
  exact h

/-- C1 counterexample: with one eliminated component `A` and a probe that
always passes, the engine terminates successfully with
`restoredSet = [A]` (restored as a singleton test set, so the Minimize pass
never ran), yet removing `A` alone from the final tree still passes
validation — so not every unit of `restoredSet` is individually
necessary. -/
theorem singleton_restore_not_individually_necessary :
    (performBinarySearchRecovery envAllPass ["A"] [] 20 ∅).1.success = true ∧
    (performBinarySearchRecovery envAllPass ["A"] [] 20
        ∅).1.restoredComponents = ["A"] ∧
    ¬ (∀ c ∈ (performBinarySearchRecovery envAllPass ["A"] [] 20
          ∅).1.restoredComponents,
        envAllPass.validate
          ((performBinarySearchRecovery envAllPass ["A"] [] 20 ∅).2.erase c)
          = false) := by
  decide

/-- C1 (amended): every component that a Minimize pass reports as necessary
was individually necessary at the time of its probe — there is a tree state
not containing it on which validation failed (the code restores a member
exactly when the probe with that member removed fails).  Components restored
as singleton test sets never undergo this check, and carry no such
guarantee. -/
theorem minimize_members_individually_necessary (env : RecoveryEnv)
    (tree : Finset String) (ws : List String) :
    ∀ c ∈ (minimizeWorkingSet env tree ws).2,
      ∃ t : Finset String, c ∉ t ∧ env.validate t = false := by
  induction ws generalizing tree with
  | nil => simp [minimizeWorkingSet]
  | cons c rest ih =>
    intro d hd
    simp only [minimizeWorkingSet] at hd
    split at hd
    · exact ih _ d hd
    · rcases List.mem_cons.mp hd with rfl | h
      · refine ⟨removeComponents tree [d], ?_, ?_⟩
        · simp [removeComponents]
        · simpa using ‹¬ _ = true›
      · exact ih _ d h

/-- C1 amended witness: `B` is reported necessary by a concrete Minimize
pass, and indeed some probed tree without `B` fails validation. -/
theorem minimize_members_individually_necessary_witness :
    "B" ∈ (minimizeWorkingSet envNeedsB {"B"} ["B"]).2 ∧
    ∃ t : Finset String, "B" ∉ t ∧ envNeedsB.validate t = false :=
  ⟨by decide,
    minimize_members_individually_necessary envNeedsB {"B"} ["B"] "B"
      (by decide)⟩

/-- C4: at the failing input — a component whose only export declaration is
`export class Foo { ... }` — the original module's exported symbol set is
`{Foo}`, but `extractExports` records no export for it (the visitor inspects
only `FunctionDeclaration` and `VariableDeclaration` named declarations), so
the stub `createEmptyExport` writes exports nothing: the stub's export set
does not equal the backup's, contradicting both the claim and the code's own
`all exports preserved` stub banner. -/
theorem class_export_dropped_from_stub :
    moduleExportedNames [ExportDecl.namedClass "Foo"] = {"Foo"} ∧
    extractExports [ExportDecl.namedClass "Foo"] = ∅ ∧
    stubExportedNames (extractExports [ExportDecl.namedClass "Foo"]) = ∅ ∧
    stubExportedNames (extractExports [ExportDecl.namedClass "Foo"]) ≠
      moduleExportedNames [ExportDecl.namedClass "Foo"] := by
  decide

/-- C5 counterexample: a component named `Header` that the caller put in
`NuclearConfig.preserveList` is still deleted by the nuclear scan and stored
in the deleted-components backup (nothing of it is left on disk) — the scan
consults only the hard-coded critical set. -/
theorem preserveList_component_still_deleted :
    ("Header", "export default Header") ∈
      (scanAndDeleteAllComponents ⟨["Header"], 50⟩
        [("Header", "export default Header")]).1 ∧
    (scanAndDeleteAllComponents ⟨["Header"], 50⟩
        [("Header", "export default Header")]).2 = [] ∧
    "Header" ∈ (⟨["Header"], 50⟩ : NuclearConfig).preserveList := by
  decide

/-- C5 (amended): the nuclear delete-and-stub scan deletes and backs up
exactly the component files whose basename is outside the hard-coded
critical set `{App, main, index}`; the caller-supplied
`NuclearConfig.preserveList` is ignored — the scan's output is the same for
every configuration. -/
theorem nuclear_scan_protects_only_hardcoded_criticals
    (config : NuclearConfig) (files : List (String × String))
    (name content : String) :
    ((name, content) ∈ (scanAndDeleteAllComponents config files).1 ↔
      (name, content) ∈ files ∧ ¬ name ∈ criticalComponents) ∧
    ((name, content) ∈ (scanAndDeleteAllComponents config files).2 ↔
      (name, content) ∈ files ∧ name ∈ criticalComponents) ∧
    (∀ config₂ : NuclearConfig,
      scanAndDeleteAllComponents config files =
        scanAndDeleteAllComponents config₂ files) := by
  refine ⟨?_, ?_, fun _ => rfl⟩
  · simp [scanAndDeleteAllComponents, List.mem_filter]
  · simp [scanAndDeleteAllComponents, List.mem_filter]

/-- C6: the orchestrator's transition rules — (1) when the current phase is
ALPHA, its result failed, and `charlie` is not already in the phase list,
`charlie` is appended to the phase list and the loop continues; (2) when the
first recorded ALPHA result failed, `executeBetaPhase` performs no
refinement work (it returns the skip record with empty change lists), and
the loop continues past BETA instead of stopping; (3) when the first
recorded ALPHA result succeeded, `executeCharliePhase` performs no
restoration and returns success with empty change lists. -/
theorem phase_transition_rules (env : OrchestratorEnv) (mode : Mode) :
    (∀ s : OrchState, s.phases.get? s.idx = some .alpha →
      (executePhase env s.results .alpha).success = false →
      Phase.charlie ∉ s.phases →
      (optimizeStep env mode s).phases = s.phases ++ [.charlie] ∧
      (optimizeStep env mode s).broken = false) ∧
    (∀ results : List PhaseResult, ∀ a : PhaseResult,
      results.find? (fun p => p.phase == .alpha) = some a →
      a.success = false →
      executeBetaPhase env results = betaSkipResult) ∧
    (∀ s : OrchState, ∀ a : PhaseResult,
      s.phases.get? s.idx = some .beta →
      s.results.find? (fun p => p.phase == .alpha) = some a →
      a.success = false →
      (optimizeStep env mode s).broken = false) ∧
    (∀ results : List PhaseResult, ∀ a : PhaseResult,
      results.find? (fun p => p.phase == .alpha) = some a →
      a.success = true →
      executeCharliePhase env results = ⟨.charlie, true, [], [], [], []⟩) := by
  refine ⟨?_, ?_, ?_, ?_⟩
  · intro s hget hfail hnotin
    simp only [optimizeStep, hget]
    rw [if_pos ⟨by trivial, hfail, hnotin⟩]
    exact ⟨rfl, rfl⟩
  · intro results a hfind hfail
    simp [executeBetaPhase, hfind, hfail]
  · intro s a hget hfind hfail
    have hmem : a ∈ s.results := List.mem_of_find?_eq_some hfind
    have hp := List.find?_some hfind
    simp only at hp
    have hany : ((s.results ++ [executePhase env s.results Phase.beta]).any
        fun p => p.phase == Phase.alpha && !p.success) = true := by
      rw [List.any_eq_true]
      exact ⟨a, List.mem_append_left _ hmem, by simp [hp, hfail]⟩
    simp only [optimizeStep, hget]
    split_ifs <;> first | rfl | simp_all
  · intro results a hfind hsucc
    simp [executeCharliePhase, hfind, hsucc]

/-- C6 witness: the three rules at concrete orchestrator states — ALPHA
failing with `charlie` unscheduled appends `charlie`; BETA after the failed
ALPHA returns the skip record and does not stop the loop; CHARLIE after a
successful ALPHA returns success with empty change lists. -/
theorem phase_transition_rules_witness :
    (optimizeStep envW .nuclear
        ⟨[.zulu, .alpha], 1, [zuluOkW], false⟩).phases =
      [Phase.zulu, .alpha] ++ [.charlie] ∧
    (optimizeStep envW .nuclear
        ⟨[.zulu, .alpha], 1, [zuluOkW], false⟩).broken = false ∧
    executeBetaPhase envW [zuluOkW, alphaFailW] = betaSkipResult ∧
    (optimizeStep envW .nuclear
        ⟨[.zulu, .alpha, .beta], 2, [zuluOkW, alphaFailW], false⟩).broken
      = false ∧
    executeCharliePhase envW [alphaOkW] =
      ⟨Phase.charlie, true, [], [], [], []⟩ := by
  have h := phase_transition_rules envW .nuclear
  exact ⟨(h.1 ⟨[.zulu, .alpha], 1, [zuluOkW], false⟩ (by decide) (by decide)
      (by decide)).1,
    (h.1 ⟨[.zulu, .alpha], 1, [zuluOkW], false⟩ (by decide) (by decide)
      (by decide)).2,
    h.2.1 [zuluOkW, alphaFailW] alphaFailW (by decide) (by decide),
    h.2.2.1 ⟨[.zulu, .alpha, .beta], 2, [zuluOkW, alphaFailW], false⟩
      alphaFailW (by decide) (by decide) (by decide),
    h.2.2.2 [alphaOkW] alphaOkW (by decide) (by decide)⟩

lemma candidates_foldl_mem
    (rendered : List (String × ComponentRenderInfo))
    (imported : List (String × ComponentImportInfo))
    (acc : List String) (c : String) :
    c ∈ imported.foldl
      (fun candidates entry =>
        match rendered.find? (fun p => p.1 == entry.1) with
        | none => candidates ++ [entry.1]
        | some p =>
          if p.2.renderCount ≤ 1 ∧ p.2.filePaths.length ≤ 1 then
            candidates ++ [entry.1]
          else candidates) acc ↔
      c ∈ acc ∨ ((∃ info, (c, info) ∈ imported) ∧
        renderCountOf rendered c ≤ 1 ∧ renderFileCountOf rendered c ≤ 1) := by
  induction imported generalizing acc with
  | nil => simp
  | cons entry rest ih =>
    obtain ⟨k, info⟩ := entry
    simp only [List.foldl_cons]
    rw [ih]
    by_cases hck : c = k
    · subst hck
      rcases hfind : rendered.find? (fun p => p.1 == c) with _ | p
      · have hP : renderCountOf rendered c ≤ 1 ∧
            renderFileCountOf rendered c ≤ 1 := by
          simp [renderCountOf, renderFileCountOf, hfind]
        simp only [hfind]
        constructor
        · intro _
          exact Or.inr ⟨⟨info, List.mem_cons_self _ _⟩, hP⟩
        · intro _
          exact Or.inl (List.mem_append_right _ (by simp))
      · have hPcount : renderCountOf rendered c = p.2.renderCount := by
          simp [renderCountOf, hfind]
        have hPfiles : renderFileCountOf rendered c = p.2.filePaths.length := by
          simp [renderFileCountOf, hfind]
        simp only [hfind]
        split_ifs with hp
        · constructor
          · intro _
            exact Or.inr ⟨⟨info, List.mem_cons_self _ _⟩,
              hPcount ▸ hp.1, hPfiles ▸ hp.2⟩
          · intro _
            exact Or.inl (List.mem_append_right _ (by simp))
        · constructor
          · intro h
            rcases h with h | h
            · exact Or.inl h
            · exact absurd ⟨hPcount ▸ h.2.1, hPfiles ▸ h.2.2⟩ hp
          · intro h
            rcases h with h | h
            · exact Or.inl h
            · exact absurd ⟨hPcount ▸ h.2.1, hPfiles ▸ h.2.2⟩ hp
    · have hmem : ∀ i : ComponentImportInfo,
          ((c, i) ∈ (k, info) :: rest) ↔ (c, i) ∈ rest := by
        intro i
        constructor
        · intro h
          rcases List.mem_cons.mp h with heq | h'
          · exact absurd (congrArg Prod.fst heq) hck
          · exact h'
        · exact fun h => List.mem_cons_of_mem _ h
      rcases hfind2 : rendered.find? (fun p => p.1 == k) with _ | p
      · simp only [hfind2, List.mem_append, List.mem_singleton, hmem]
        tauto
      · simp only [hfind2]
        split_ifs with hp
        · simp only [List.mem_append, List.mem_singleton, hmem]
          tauto
        · simp only [hmem]

/-- C8: the usage classifier marks an imported component as an elimination
candidate exactly when it is never rendered (its render count is `0`) or
rendered at most once in at most one file; a component rendered more than
once, or in more than one file, is never a candidate. -/
theorem elimination_candidate_iff_rarely_rendered
    (imported : List (String × ComponentImportInfo))
    (rendered : List (String × ComponentRenderInfo)) (c : String) :
    c ∈ identifyBasicEliminationCandidates imported rendered ↔
      (∃ info, (c, info) ∈ imported) ∧
        renderCountOf rendered c ≤ 1 ∧ renderFileCountOf rendered c ≤ 1 := by
  rw [identifyBasicEliminationCandidates, candidates_foldl_mem]
  simp

end BundleOpt
